import Mathlib

set_option autoImplicit false

/-
Shallow embedding of the mina-attestations presentation protocol core:
the credential selector, the presentation request context binder, the
presentation orchestrator (examples/unique-hash.eg.ts and the presentation
module bundled with it), and the recursive credential spec
(src/credential-recursive.ts).

Field elements, public keys, claims records and other backend values are
modelled as opaque natural numbers; the opaque proving backend (Poseidon
hashing, proof verification, program compilation) is passed in as explicit
function parameters, mirroring the narrow interface the source calls through.
-/

/-- Field elements and other opaque backend values are modelled as Nat. -/
abbrev F := Nat

/-- A stored credential together with the optional explicit key tag, as in the
TypeScript type StoredCredential and an optional key field. The credential
payload itself is opaque. -/
structure CredEntry where
  cred : F
  key : Option String
deriving DecidableEq, Repr

/-- Model of credentials.findIndex(c => c.key === key) followed by
credentials.splice(i, 1): returns the first entry whose tag equals the key,
together with the pool with that entry removed; none when no entry is tagged
with the key. An untagged entry (key = none) never matches. -/
def extractFirst (k : String) : List CredEntry → Option (CredEntry × List CredEntry)
  | [] => none
  | c :: cs =>
    if c.key = some k then some (c, cs)
    else
      match extractFirst k cs with
      | none => none
      | some (c0, rest) => some (c0, c :: rest)

/-- First pass of pickCredentials: for each needed key in order, bind the first
credential explicitly tagged with that key and remove it from the pool;
keys with no tagged credential are collected in order into the still-needed
list. Returns (bindings, still-needed keys, remaining pool). -/
def pickPass1 : List String → List CredEntry →
    List (String × CredEntry) × List String × List CredEntry
  | [], creds => ([], [], creds)
  | k :: ks, creds =>
    match extractFirst k creds with
    | none =>
      let r := pickPass1 ks creds
      (r.1, k :: r.2.1, r.2.2)
    | some (c, creds1) =>
      let r := pickPass1 ks creds1
      ((k, c) :: r.1, r.2.1, r.2.2)

/-- Second pass of pickCredentials: the for-of loop that shifts still-needed
keys and assigns the remaining pool entries to them in encounter order,
stopping when either list runs out. -/
def pickPass2 : List String → List CredEntry → List (String × CredEntry)
  | [], _ => []
  | _ :: _, [] => []
  | k :: ks, c :: cs => (k, c) :: pickPass2 ks cs

/-- The keys that remain unbound after both passes: the still-needed keys of
the first pass minus the ones consumed by the second pass. -/
def unboundKeys (credentialsNeeded : List String) (credentials : List CredEntry) :
    List String :=
  ((pickPass1 credentialsNeeded credentials).2.1).drop
    ((pickPass1 credentialsNeeded credentials).2.2).length

/-- pickCredentials from the presentation module: first pass binds by tag,
second pass assigns the remaining pool in order to the keys still needed, and
the final assert fails with a message joining the keys that are still unbound.
The returned record is modelled as an association list in insertion order. -/
def pickCredentials (credentialsNeeded : List String) (credentials : List CredEntry) :
    Except String (List (String × CredEntry)) :=
  let r := pickPass1 credentialsNeeded credentials
  if unboundKeys credentialsNeeded credentials = [] then
    Except.ok (r.1 ++ pickPass2 r.2.1 r.2.2)
  else
    Except.error ("Missing credentials: " ++
      String.intercalate ", " (unboundKeys credentialsNeeded credentials))

/-- pickCredentials as seen from its caller. The TypeScript parameter is
written [...credentials], so the callers array is copied on entry and every
splice in the body acts on the copy; we make the callers array explicit state
and return it alongside the result. -/
def pickCredentialsCall (credentialsNeeded : List String)
    (callerArray : List CredEntry) :
    Except String (List (String × CredEntry)) × List CredEntry :=
  let credentials := callerArray
  (pickCredentials credentialsNeeded credentials, callerArray)

/-! ## Presentation requests and the context binder -/

/-- The wallet-side context: verifier identity (a string or public key,
opaque here) and the client nonce. -/
structure WalletContextT where
  verifierIdentity : F
  clientNonce : F
deriving DecidableEq, Repr

/-- The request-side input context: action and server nonce. -/
structure InputContextT where
  action : F
  serverNonce : F
deriving DecidableEq, Repr

/-- The context configuration: request transport tag and the hash of the
presentation circuit verification key. -/
structure ContextConfigT where
  type : String
  presentationCircuitVKHash : F
deriving DecidableEq, Repr

/-- The seven-field record handed to the context hash, exactly the
contextParams object built inside withContext. -/
structure ContextInput where
  type : String
  presentationCircuitVKHash : F
  clientNonce : F
  serverNonce : F
  verifierIdentity : F
  action : F
  claims : F
deriving DecidableEq, Repr

/-- Kinds of inputs of a program spec: credential inputs require a stored
credential, claim inputs are verifier-supplied constants. -/
inductive InputKind
  | credential
  | claim
deriving DecidableEq, Repr

/-- A program spec, reduced to what the orchestrator inspects: the named,
ordered input list with each input kind. The assertion and output logic is
opaque to the claims treated here. -/
structure SpecT where
  inputs : List (String × InputKind)

/-- A proof produced by the compiled program; only its public output is
inspected by the orchestrator. -/
structure ProofT where
  publicOutput : F
deriving DecidableEq, Repr

/-- The record handed to program.run by createPresentation. -/
structure RunInput where
  context : F
  claims : F
  ownerSignature : F
  credentials : List (String × CredEntry)

/-- A compiled program, reduced to its run function (the opaque proving
backend). -/
structure ProgramT where
  run : RunInput → ProofT

/-- A presentation request: program spec, claims (opaque), the context
derivation function, and the program possibly attached by a previous
Presentation.compile call. deriveContext takes the optional wallet context;
for a contextful request a missing wallet context makes the JS destructuring
throw, which we model as an error result. -/
structure PresentationRequestT where
  programSpec : SpecT
  claims : F
  deriveContext : Option WalletContextT → Except String F
  program : Option ProgramT

/-- PresentationRequest.noContext: the derived context is the constant zero
field element, whatever the wallet context is. -/
def PresentationRequest.noContext (programSpec : SpecT) (claims : F) :
    PresentationRequestT :=
  { programSpec := programSpec
    claims := claims
    deriveContext := fun _ => Except.ok 0
    program := none }

/-- Modelled from the spec: computeContext and generateContext live in
program-spec.ts, which is not among the sources; per the spec the context of a
contextful request is the domain-separated hash of exactly
(typeTag, verificationKeyHash, clientNonce, serverNonce, verifierIdentity,
action, hash(claims)). We model their composition as an abstract hash of
precisely that seven-field record. -/
def computeGenerateContext (ctxHash : ContextInput → F) (params : ContextInput) : F :=
  ctxHash params

/-- PresentationRequest.withContext: hashes the field encoding of the claims
once, and derives the context from the wallet context by hashing the
seven-field contextParams record. poseidonHash models Poseidon.hash and
claimsToFields models Struct(claimsType).toFields, both opaque backend
capabilities. -/
def PresentationRequest.withContext (poseidonHash : List F → F)
    (ctxHash : ContextInput → F) (claimsToFields : F → List F)
    (programSpec : SpecT) (claims : F) (contextConfig : ContextConfigT)
    (inputContext : InputContextT) : PresentationRequestT :=
  let claimsFields := claimsToFields claims
  let claimsHash := poseidonHash claimsFields
  { programSpec := programSpec
    claims := claims
    program := none
    deriveContext := fun
      | none => Except.error "TypeError: walletContext is undefined"
      | some walletContext =>
        Except.ok (computeGenerateContext ctxHash
          { type := contextConfig.type
            presentationCircuitVKHash := contextConfig.presentationCircuitVKHash
            clientNonce := walletContext.clientNonce
            serverNonce := inputContext.serverNonce
            verifierIdentity := walletContext.verifierIdentity
            action := inputContext.action
            claims := claimsHash }) }

/-! ## The presentation orchestrator -/

/-- The steps of createPresentation, in the order the source performs them;
used to record the observable call order of the orchestrator. -/
inductive Step
  | deriveContext
  | compile
  | pickCredentials
  | sign
  | runProgram
deriving DecidableEq, Repr

/-- The credential-typed input names of a spec, in declaration order:
Object.entries(request.programSpec.inputs) filtered to credential inputs,
mapped to their keys. -/
def neededKeys (s : SpecT) : List String :=
  (s.inputs.filter fun c => c.2 = InputKind.credential).map Prod.fst

/-- The selected credentials listed in needed-key order, as passed to
signCredentials; the record lookup credentialsUsed[key] with its non-null
assertion is modelled as an association-list lookup with a default. -/
def usedInNeededOrder (needed : List String) (used : List (String × CredEntry)) :
    List CredEntry :=
  needed.map fun k => (((used.find? fun kc => kc.1 = k).map Prod.snd).getD ⟨0, none⟩)

/-- A presentation: version tag, the claims of the request, the output claim
and the proof. -/
structure PresentationT where
  version : String
  claims : F
  outputClaim : F
  proof : ProofT
deriving DecidableEq, Repr

/-- The arguments object of Presentation.create. -/
structure CreateArgs where
  request : PresentationRequestT
  walletContext : Option WalletContextT
  credentials : List CredEntry

/-- createPresentation: derive the context, compile (reuse the program
attached to the request or create it from the spec — createProgram is the
opaque compiler), select credentials, sign over the context and the selected
credentials in needed order, run the program, and assemble the presentation.
The second component records the steps performed, in order; a failing step
aborts with its error and no later step is recorded. -/
def createPresentation (createProgram : SpecT → ProgramT)
    (signCredentials : F → F → List CredEntry → F)
    (ownerKey : F) (args : CreateArgs) :
    Except String PresentationT × List Step :=
  match args.request.deriveContext args.walletContext with
  | Except.error e => (Except.error e, [Step.deriveContext])
  | Except.ok context =>
    let program := args.request.program.getD (createProgram args.request.programSpec)
    let credentialsNeeded := neededKeys args.request.programSpec
    match pickCredentials credentialsNeeded args.credentials with
    | Except.error e =>
      (Except.error e, [Step.deriveContext, Step.compile, Step.pickCredentials])
    | Except.ok credentialsUsed =>
      let ownerSignature := signCredentials ownerKey context
        (usedInNeededOrder credentialsNeeded credentialsUsed)
      let proof := program.run
        { context := context
          claims := args.request.claims
          ownerSignature := ownerSignature
          credentials := credentialsUsed }
      (Except.ok
        { version := "v0"
          claims := args.request.claims
          outputClaim := proof.publicOutput
          proof := proof },
       [Step.deriveContext, Step.compile, Step.pickCredentials, Step.sign,
        Step.runProgram])

/-! ## Recursive credentials (src/credential-recursive.ts) -/

/-- An o1js verification key: serialized data and its hash. -/
structure VK where
  data : String
  hash : F
deriving DecidableEq, Repr

/-- A dynamic proof from the inner program; its public input and public
output are opaque values (the output is the credential record the inner
program declares). -/
structure DynProof where
  publicInput : F
  publicOutput : F
deriving DecidableEq, Repr

/-- A recursive credential witness: the inner verification key and the inner
proof (the type tag of the union is the constant string recursive). -/
structure RecursiveWitness where
  vk : VK
  proof : DynProof
deriving DecidableEq, Repr

/-- Recursive(...).verify, the in-circuit path: assert the inner proof against
the supplied verification key, then assert that the recomputed in-circuit
credential hash of the declared public output equals the expected credential
hash, with the message of the failed assertEquals. proofValid models the
backend check proof.verify(vk) and hashCredentialInCircuit models the hash of
the credential record. Assertion failures are modelled as error results. -/
def Recursive.verify (proofValid : DynProof → VK → Bool)
    (hashCredentialInCircuit : F → F)
    (w : RecursiveWitness) (credHash : F) : Except String Unit :=
  if ¬ proofValid w.proof w.vk then Except.error "Proof does not verify"
  else if hashCredentialInCircuit w.proof.publicOutput ≠ credHash then
    Except.error "Invalid proof output"
  else Except.ok ()

/-- Recursive(...).verifyOutsideCircuit: verify the inner proof with the
out-of-circuit backend verifier (assert(ok, ...) with the message Invalid
proof), then the same hash equality assertion as the in-circuit path. -/
def Recursive.verifyOutsideCircuit (proofValid : DynProof → VK → Bool)
    (hashCredentialInCircuit : F → F)
    (w : RecursiveWitness) (credHash : F) : Except String Unit :=
  if ¬ proofValid w.proof w.vk then Except.error "Invalid proof"
  else if hashCredentialInCircuit w.proof.publicOutput ≠ credHash then
    Except.error "Invalid proof output"
  else Except.ok ()

/-- Recursive.Generic verify (defineCredential): same structure, with
credentialHash in place of the typed in-circuit hash. -/
def genericRecursive.verify (proofValid : DynProof → VK → Bool)
    (credentialHash : F → F)
    (w : RecursiveWitness) (credHash : F) : Except String Unit :=
  if ¬ proofValid w.proof w.vk then Except.error "Proof does not verify"
  else if credentialHash w.proof.publicOutput ≠ credHash then
    Except.error "Invalid proof output"
  else Except.ok ()

/-- Recursive.Generic verifyOutsideCircuit. -/
def genericRecursive.verifyOutsideCircuit (proofValid : DynProof → VK → Bool)
    (credentialHash : F → F)
    (w : RecursiveWitness) (credHash : F) : Except String Unit :=
  if ¬ proofValid w.proof w.vk then Except.error "Invalid proof"
  else if credentialHash w.proof.publicOutput ≠ credHash then
    Except.error "Invalid proof output"
  else Except.ok ()

/-- Recursive(...).issuer: hash the field encoding of the inner proofs public
input with Poseidon.hash, then combine it with the verification key hash
under the issuer-recursive domain separator via Poseidon.hashWithPrefix.
poseidonHash, hashPrefixed and inputToFields model the opaque backend; the
issuerRecursive string models prefixes.issuerRecursive from constants.ts. -/
def Recursive.issuer (poseidonHash : List F → F)
    (hashPrefixed : String → List F → F) (inputToFields : F → List F)
    (issuerRecursive : String) (w : RecursiveWitness) : F :=
  let credIdent := poseidonHash (inputToFields w.proof.publicInput)
  hashPrefixed issuerRecursive [w.vk.hash, credIdent]

/-- Recursive.Generic issuer: identical computation, with the field encoder
taken from the proof constructor rather than the fixed proof class. -/
def genericRecursive.issuer (poseidonHash : List F → F)
    (hashPrefixed : String → List F → F) (inputToFields : F → List F)
    (issuerRecursive : String) (w : RecursiveWitness) : F :=
  let credIdent := poseidonHash (inputToFields w.proof.publicInput)
  hashPrefixed issuerRecursive [w.vk.hash, credIdent]

/-- The options object of program.compile; every field is optional in the
source. The cache is opaque. -/
structure CompileOptions where
  cache : Option F := none
  forceRecompile : Option Bool := none
  proofsEnabled : Option Bool := none
deriving DecidableEq, Repr

/-- The closure state of the compile wrapper in recursiveFromProgram:
the isCompiled flag and the cached verification key. -/
structure CompileState where
  isCompiled : Bool
  vk : Option VK
deriving DecidableEq, Repr

/-- The memoized compile of a recursive credential program
(recursiveFromProgram): when isCompiled is already set, return the cached
verification key (the vk! non-null assertion is modelled with a default) and
do not call the underlying program.compile at all; otherwise call it, cache
the result and set the flag. programCompile models the underlying
program.compile; the last component counts how many times it ran during this
call. -/
def RecursiveCredential.compile (programCompile : Option CompileOptions → VK)
    (st : CompileState) (options : Option CompileOptions) :
    CompileState × VK × Nat :=
  if st.isCompiled then (st, st.vk.getD ⟨"", 0⟩, 0)
  else
    let vk := programCompile options
    ({ isCompiled := true, vk := some vk }, vk, 1)

/-! ## Theorems -/

/-- C7: for every contextless PresentationRequest built with noContext and
every wallet context (present or absent), deriveContext returns the constant
zero field element. -/
theorem noContext_deriveContext_zero (programSpec : SpecT) (claims : F)
    (walletContext : Option WalletContextT) :
    (PresentationRequest.noContext programSpec claims).deriveContext walletContext
      = Except.ok 0 := rfl

/-- C3: for every contextful PresentationRequest built with withContext and
every wallet context, deriveContext is the domain-separated context hash of
exactly (typeTag, verificationKeyHash, clientNonce, serverNonce,
verifierIdentity, action, hash of the claims field encoding). -/
theorem withContext_deriveContext_spec (poseidonHash : List F → F)
    (ctxHash : ContextInput → F) (claimsToFields : F → List F)
    (programSpec : SpecT) (claims : F) (contextConfig : ContextConfigT)
    (inputContext : InputContextT) (walletContext : WalletContextT) :
    (PresentationRequest.withContext poseidonHash ctxHash claimsToFields
        programSpec claims contextConfig inputContext).deriveContext
        (some walletContext)
      = Except.ok (computeGenerateContext ctxHash
          { type := contextConfig.type
            presentationCircuitVKHash := contextConfig.presentationCircuitVKHash
            clientNonce := walletContext.clientNonce
            serverNonce := inputContext.serverNonce
            verifierIdentity := walletContext.verifierIdentity
            action := inputContext.action
            claims := poseidonHash (claimsToFields claims) }) := rfl

/-- C8: for every recursive credential witness, issuer() is the
issuer-recursive-prefixed hash of the pair (vk.hash, hash of the field
encoding of the inner proof public input), in both the typed Recursive spec
and the generic one. -/
theorem recursive_issuer_spec (poseidonHash : List F → F)
    (hashPrefixed : String → List F → F) (inputToFields : F → List F)
    (issuerRecursive : String) (w : RecursiveWitness) :
    Recursive.issuer poseidonHash hashPrefixed inputToFields issuerRecursive w
      = hashPrefixed issuerRecursive
          [w.vk.hash, poseidonHash (inputToFields w.proof.publicInput)]
    ∧ genericRecursive.issuer poseidonHash hashPrefixed inputToFields
        issuerRecursive w
      = hashPrefixed issuerRecursive
          [w.vk.hash, poseidonHash (inputToFields w.proof.publicInput)] :=
  ⟨rfl, rfl⟩

/-- C4: for every recursive credential witness and expected credential hash,
the in-circuit verify and the out-of-circuit verifyOutsideCircuit accept
exactly the same witnesses, for the typed Recursive spec and the generic one
alike. -/
theorem recursive_verify_in_out_equiv (proofValid : DynProof → VK → Bool)
    (hashCredentialInCircuit credentialHash : F → F) (w : RecursiveWitness)
    (credHash : F) :
    (Recursive.verify proofValid hashCredentialInCircuit w credHash
        = Except.ok ()
      ↔ Recursive.verifyOutsideCircuit proofValid hashCredentialInCircuit w
          credHash = Except.ok ())
    ∧ (genericRecursive.verify proofValid credentialHash w credHash
        = Except.ok ()
      ↔ genericRecursive.verifyOutsideCircuit proofValid credentialHash w
          credHash = Except.ok ()) := by
  unfold Recursive.verify Recursive.verifyOutsideCircuit
    genericRecursive.verify genericRecursive.verifyOutsideCircuit
  refine ⟨?_, ?_⟩ <;> split_ifs <;> simp

/-- C5: verify succeeds exactly when the inner proof checks against the
supplied verification key and the recomputed hash of the declared public
output equals the expected credential hash; whenever the hash differs,
both verify paths fail with the invalid-witness message Invalid proof output
rather than accepting. -/
theorem recursive_verify_checks (proofValid : DynProof → VK → Bool)
    (hashCredentialInCircuit : F → F) (w : RecursiveWitness) (credHash : F) :
    (Recursive.verify proofValid hashCredentialInCircuit w credHash
        = Except.ok ()
      ↔ proofValid w.proof w.vk = true
        ∧ hashCredentialInCircuit w.proof.publicOutput = credHash)
    ∧ (proofValid w.proof w.vk = true →
        hashCredentialInCircuit w.proof.publicOutput ≠ credHash →
        Recursive.verify proofValid hashCredentialInCircuit w credHash
            = Except.error "Invalid proof output"
        ∧ Recursive.verifyOutsideCircuit proofValid hashCredentialInCircuit w
            credHash = Except.error "Invalid proof output") := by
  unfold Recursive.verify Recursive.verifyOutsideCircuit
  refine ⟨?_, fun hpv hne => ?_⟩
  · split_ifs <;> simp_all
  · simp [hpv, hne]

/-- Witness for C5 at a concrete input: a valid inner proof whose recomputed
output hash 1 differs from the expected credential hash 2 is rejected with
the invalid-witness message on both paths. -/
theorem recursive_verify_checks_witness :
    Recursive.verify (fun _ _ => true) (fun _ => 1) ⟨⟨"", 0⟩, ⟨0, 5⟩⟩ 2
        = Except.error "Invalid proof output"
    ∧ Recursive.verifyOutsideCircuit (fun _ _ => true) (fun _ => 1)
        ⟨⟨"", 0⟩, ⟨0, 5⟩⟩ 2 = Except.error "Invalid proof output" :=
  (recursive_verify_checks (fun _ _ => true) (fun _ => 1)
    ⟨⟨"", 0⟩, ⟨0, 5⟩⟩ 2).2 rfl (by decide)

/-- C10: selection never mutates the callers credential collection: the call
returns with the callers array unchanged, succeed or fail, and the result is
that of running the selector on the copy. -/
theorem pickCredentials_preserves_caller_array (credentialsNeeded : List String)
    (callerArray : List CredEntry) :
    (pickCredentialsCall credentialsNeeded callerArray).2 = callerArray
    ∧ (pickCredentialsCall credentialsNeeded callerArray).1
        = pickCredentials credentialsNeeded callerArray :=
  ⟨rfl, rfl⟩

/-- Counterexample to C2 as stated: after a first compile, a second call that
passes forceRecompile still returns the cached verification key and runs the
underlying compilation zero times. -/
theorem compile_force_recompile_ignored_cex :
    RecursiveCredential.compile (fun _ => ⟨"vk", 1⟩)
        (RecursiveCredential.compile (fun _ => ⟨"vk", 1⟩) ⟨false, none⟩ none).1
        (some { forceRecompile := some true })
      = ((RecursiveCredential.compile (fun _ => ⟨"vk", 1⟩) ⟨false, none⟩
            none).1,
         ⟨"vk", 1⟩, 0) := rfl

/-- C2 (amended): once a first compile call has run, every later compile call
returns the identical cached verification key and performs no compilation
work, regardless of its options — the forced-recompile option is forwarded to
the underlying compile only on the first call. -/
theorem compile_second_call_cached (programCompile : Option CompileOptions → VK)
    (st1 : CompileState) (vk : VK) (n : Nat)
    (opts1 opts2 : Option CompileOptions)
    (h : RecursiveCredential.compile programCompile ⟨false, none⟩ opts1
          = (st1, vk, n)) :
    RecursiveCredential.compile programCompile st1 opts2 = (st1, vk, 0) := by
  have h' : (⟨true, some (programCompile opts1)⟩ : CompileState) = st1
      ∧ programCompile opts1 = vk ∧ 1 = n := by
    simpa [RecursiveCredential.compile] using h
  obtain ⟨h1, h2, h3⟩ := h'
  subst h1
  subst h2
  simp [RecursiveCredential.compile]

/-- Witness for C2 (amended) at a concrete input. -/
theorem compile_second_call_cached_witness :
    RecursiveCredential.compile (fun _ => ⟨"vk", 1⟩) ⟨true, some ⟨"vk", 1⟩⟩
        (some { forceRecompile := some true })
      = (⟨true, some ⟨"vk", 1⟩⟩, ⟨"vk", 1⟩, 0) :=
  compile_second_call_cached (fun _ => ⟨"vk", 1⟩) ⟨true, some ⟨"vk", 1⟩⟩
    ⟨"vk", 1⟩ 1 none (some { forceRecompile := some true }) rfl

/-- Counterexample to C1 as stated: with needed keys [a, b] and a pool of two
credentials both tagged a, the second pass assigns the second a-tagged
credential to the key b, a key different from its tag. -/
theorem pickCredentials_tag_reassignment_cex :
    pickCredentials ["a", "b"] [⟨1, some "a"⟩, ⟨2, some "a"⟩]
      = Except.ok [("a", ⟨1, some "a"⟩), ("b", ⟨2, some "a"⟩)]
    ∧ (⟨2, some "a"⟩ : CredEntry).key = some "a"
    ∧ "b" ≠ "a" :=
  ⟨rfl, rfl, by decide⟩

/-- An entry returned by extractFirst is tagged with the searched key. -/
theorem extractFirst_key (k : String) :
    ∀ (l : List CredEntry) (c : CredEntry) (rest : List CredEntry),
      extractFirst k l = some (c, rest) → c.key = some k := by
  intro l
  induction l with
  | nil => intro c rest h; simp [extractFirst] at h
  | cons a as ih =>
    intro c rest h
    by_cases ha : a.key = some k
    · rw [extractFirst, if_pos ha] at h
      obtain ⟨rfl, rfl⟩ := Prod.mk.injEq .. ▸ Option.some.injEq .. ▸ h
      exact ha
    · rw [extractFirst, if_neg ha] at h
      cases he : extractFirst k as with
      | none => rw [he] at h; exact absurd h (by simp)
      | some p =>
        rw [he] at h
        have hc : p.1 = c := by
          cases p
          simpa using congrArg (fun o => (Option.map Prod.fst o).getD a) h
        exact hc ▸ ih p.1 p.2 (by rw [he])

/-- Every binding produced by the first pass respects the tag: the bound key
is exactly the tag of the bound credential. -/
theorem pickPass1_respects_tags :
    ∀ (needed : List String) (pool : List CredEntry) (kc : String × CredEntry),
      kc ∈ (pickPass1 needed pool).1 → kc.2.key = some kc.1 := by
  intro needed
  induction needed with
  | nil => intro pool kc h; simp [pickPass1] at h
  | cons k ks ih =>
    intro pool kc h
    rw [pickPass1] at h
    cases he : extractFirst k pool with
    | none => rw [he] at h; exact ih pool kc h
    | some p =>
      rw [he] at h
      cases p with
      | mk c creds1 =>
        simp only at h
        rcases List.mem_cons.mp h with h1 | h2
        · subst h1; exact extractFirst_key k pool c creds1 he
        · exact ih creds1 kc h2

/-- C1 (amended): every binding in the returned assignment is either from the
first pass, where a credential is bound only to the key equal to its explicit
tag, or from the order-based second pass, which assigns the remaining pool
entries (tagged or not) to the still-needed keys in encounter order. -/
theorem pickCredentials_tagged_only_in_first_pass
    (needed : List String) (pool : List CredEntry)
    (r : List (String × CredEntry))
    (h : pickCredentials needed pool = Except.ok r) :
    ∀ kc ∈ r, kc.2.key = some kc.1
      ∨ kc ∈ pickPass2 (pickPass1 needed pool).2.1
          (pickPass1 needed pool).2.2 := by
  intro kc hkc
  rw [pickCredentials] at h
  split at h
  · have hr : (pickPass1 needed pool).1
        ++ pickPass2 (pickPass1 needed pool).2.1 (pickPass1 needed pool).2.2
        = r := by simpa using h
    rw [← hr] at hkc
    rcases List.mem_append.mp hkc with h1 | h2
    · exact Or.inl (pickPass1_respects_tags needed pool kc h1)
    · exact Or.inr h2
  · exact absurd h (by simp)

/-- Witness for C1 (amended) at a concrete input: the single binding of a
one-key, one-credential run is tag-respecting or second-pass. -/
theorem pickCredentials_tagged_only_in_first_pass_witness :
    (⟨1, some "a"⟩ : CredEntry).key = some "a"
      ∨ ("a", (⟨1, some "a"⟩ : CredEntry))
          ∈ pickPass2 (pickPass1 ["a"] [⟨1, some "a"⟩]).2.1
              (pickPass1 ["a"] [⟨1, some "a"⟩]).2.2 :=
  pickCredentials_tagged_only_in_first_pass ["a"] [⟨1, some "a"⟩]
    [("a", ⟨1, some "a"⟩)] rfl ("a", ⟨1, some "a"⟩) (by decide)

/-- C9: when the selector cannot bind every needed key after both passes,
pickCredentials fails with a message naming exactly the still-unbound keys,
createPresentation propagates that error with no Presentation, and the
recorded steps stop at selection: neither the signing step nor the program
run is ever reached. -/
theorem createPresentation_missing_credentials
    (createProgram : SpecT → ProgramT)
    (signCredentials : F → F → List CredEntry → F)
    (ownerKey : F) (args : CreateArgs) (context : F)
    (hctx : args.request.deriveContext args.walletContext = Except.ok context)
    (hmiss : unboundKeys (neededKeys args.request.programSpec) args.credentials
      ≠ []) :
    pickCredentials (neededKeys args.request.programSpec) args.credentials
        = Except.error ("Missing credentials: " ++ String.intercalate ", "
            (unboundKeys (neededKeys args.request.programSpec)
              args.credentials))
    ∧ createPresentation createProgram signCredentials ownerKey args
        = (Except.error ("Missing credentials: " ++ String.intercalate ", "
              (unboundKeys (neededKeys args.request.programSpec)
                args.credentials)),
           [Step.deriveContext, Step.compile, Step.pickCredentials])
    ∧ Step.runProgram ∉ [Step.deriveContext, Step.compile, Step.pickCredentials]
    ∧ Step.sign ∉ [Step.deriveContext, Step.compile, Step.pickCredentials] := by
  have hp : pickCredentials (neededKeys args.request.programSpec)
      args.credentials
      = Except.error ("Missing credentials: " ++ String.intercalate ", "
          (unboundKeys (neededKeys args.request.programSpec)
            args.credentials)) := by
    rw [pickCredentials]
    simp [hmiss]
  refine ⟨hp, ?_, by decide, by decide⟩
  simp only [createPresentation, hctx, hp]

/-- Witness for C9 at a concrete input: one needed credential key a and an
empty pool. -/
theorem createPresentation_missing_credentials_witness :
    createPresentation (fun _ => ⟨fun i => ⟨i.context⟩⟩) (fun k _ _ => k) 5
        ⟨PresentationRequest.noContext ⟨[("a", InputKind.credential)]⟩ 7,
         none, []⟩
      = (Except.error "Missing credentials: a",
         [Step.deriveContext, Step.compile, Step.pickCredentials]) :=
  (createPresentation_missing_credentials (fun _ => ⟨fun i => ⟨i.context⟩⟩)
    (fun k _ _ => k) 5
    ⟨PresentationRequest.noContext ⟨[("a", InputKind.credential)]⟩ 7, none, []⟩
    0 rfl (by decide)).2.1

/-- C6: a successful createPresentation performs derive context, compile,
select credentials, sign and run, in that order and nothing else, and returns
a Presentation whose version is v0, whose claims are the request claims, and
whose output claim and proof come from running the program on the record
(context, claims, ownerSignature, credentials) with the signature taken over
the context and the selected credentials in needed order. -/
theorem createPresentation_success_spec
    (createProgram : SpecT → ProgramT)
    (signCredentials : F → F → List CredEntry → F)
    (ownerKey : F) (args : CreateArgs) (context : F)
    (used : List (String × CredEntry))
    (hctx : args.request.deriveContext args.walletContext = Except.ok context)
    (hpick : pickCredentials (neededKeys args.request.programSpec)
        args.credentials = Except.ok used) :
    createPresentation createProgram signCredentials ownerKey args
      = (Except.ok
          { version := "v0"
            claims := args.request.claims
            outputClaim :=
              ((args.request.program.getD
                  (createProgram args.request.programSpec)).run
                { context := context
                  claims := args.request.claims
                  ownerSignature := signCredentials ownerKey context
                    (usedInNeededOrder (neededKeys args.request.programSpec)
                      used)
                  credentials := used }).publicOutput
            proof :=
              (args.request.program.getD
                  (createProgram args.request.programSpec)).run
                { context := context
                  claims := args.request.claims
                  ownerSignature := signCredentials ownerKey context
                    (usedInNeededOrder (neededKeys args.request.programSpec)
                      used)
                  credentials := used } },
         [Step.deriveContext, Step.compile, Step.pickCredentials, Step.sign,
          Step.runProgram]) := by
  simp only [createPresentation, hctx, hpick]

/-- Witness for C6 at a concrete input: one needed credential key, one
untagged credential, a contextless request. -/
theorem createPresentation_success_spec_witness :
    createPresentation (fun _ => ⟨fun i => ⟨i.context + i.claims⟩⟩)
        (fun k c l => k + c + l.length) 5
        ⟨PresentationRequest.noContext
            ⟨[("signedData", InputKind.credential)]⟩ 7,
         none, [⟨1, none⟩]⟩
      = (Except.ok ⟨"v0", 7, 7, ⟨7⟩⟩,
         [Step.deriveContext, Step.compile, Step.pickCredentials, Step.sign,
          Step.runProgram]) :=
  createPresentation_success_spec (fun _ => ⟨fun i => ⟨i.context + i.claims⟩⟩)
    (fun k c l => k + c + l.length) 5
    ⟨PresentationRequest.noContext ⟨[("signedData", InputKind.credential)]⟩ 7,
     none, [⟨1, none⟩]⟩
    0 [("signedData", ⟨1, none⟩)] rfl rfl
